import Mathlib

set_option maxRecDepth 100000

/-!
Verification of the streaming subprocess session manager with embedded
approval protocol (ProcessManager, `src/unnamed/part_004`), together with
the JSONL transcript parsing of the sessions route
(`src/apps/bridge/src/routes/sessions.ts`).

The TypeScript code is shallowly embedded: JSON values become an inductive
`Json`, the per-chat mutable record `ManagedChat` becomes a structure, and
each method or event handler becomes a pure function from the pre-state to
the post-state together with the lists of emitted events and stdin writes.
`JSON.parse` of a raw stdout line is external to the repository; its outcome
is modelled by `StreamLine` (`garbage` for a line whose parse throws, `json`
for a parsed value), matching the `try/catch` wrapper in `handleStreamLine`.
Wall-clock timestamps (`new Date().toISOString()`) and `randomUUID()` values
are passed in as parameters or dropped from the event model where no claim
depends on them.
-/

/-- JSON values. Numbers are modelled as integers: every number the
manager itself constructs or inspects is integral, and no claim depends
on float behaviour. Object fields keep insertion order, as JavaScript
objects do for string keys. -/
inductive Json where
  | null : Json
  | bool (b : Bool) : Json
  | str (s : String) : Json
  | num (n : Int) : Json
  | arr (elems : List Json) : Json
  | obj (fields : List (String × Json)) : Json

/-- First binding of a key in an object field list (JS property lookup). -/
def lookupField : List (String × Json) → String → Option Json
  | [], _ => none
  | (k, v) :: rest, key => if k = key then some v else lookupField rest key

/-- Property access `j[key]`; `none` models JS `undefined` (also for
access on a non-object, matching optional chaining in the source). -/
def Json.get : Json → String → Option Json
  | Json.obj fs, key => lookupField fs key
  | _, _ => none

/-- JS truthiness of a JSON value (`if (x)` in the source). -/
def jsTruthy : Json → Bool
  | Json.null => false
  | Json.bool b => b
  | Json.str s => decide (s ≠ "")
  | Json.num n => decide (n ≠ 0)
  | Json.arr _ => true
  | Json.obj _ => true

/-- JS `a || b` where `a` may be absent (`undefined`). -/
def jsOr (a : Option Json) (b : Json) : Json :=
  match a with
  | some v => if jsTruthy v then v else b
  | none => b

/-- JS `a || b` on an optional string (empty string is falsy). -/
def jsOrStr (a : Option String) (b : String) : String :=
  match a with
  | some s => if s = "" then b else s
  | none => b

/-- String content of a JSON value, if it is a string. -/
def Json.asStr : Json → Option String
  | Json.str s => some s
  | _ => none

/-- JS strict comparison `x === "s"` of a possibly-absent value against a
string literal: true exactly when the value is that string. -/
def isStrVal (j : Option Json) (s : String) : Bool :=
  match j with
  | some (Json.str t) => t = s
  | _ => false

/-- Hexadecimal digit for escape sequences. -/
def hexDigit (n : Nat) : String :=
  if n = 0 then "0" else if n = 1 then "1" else if n = 2 then "2"
  else if n = 3 then "3" else if n = 4 then "4" else if n = 5 then "5"
  else if n = 6 then "6" else if n = 7 then "7" else if n = 8 then "8"
  else if n = 9 then "9" else if n = 10 then "a" else if n = 11 then "b"
  else if n = 12 then "c" else if n = 13 then "d" else if n = 14 then "e"
  else "f"

/-- Escape of one character inside a JSON string literal, exactly as
`JSON.stringify` produces it. -/
def jsonEscapeChar (c : Char) : String :=
  if c = '"' then "\\\""
  else if c = '\\' then "\\\\"
  else if c = '\n' then "\\n"
  else if c = '\t' then "\\t"
  else if c = '\r' then "\\r"
  else if c = Char.ofNat 8 then "\\b"
  else if c = Char.ofNat 12 then "\\f"
  else if c.toNat < 32 then "\\u00" ++ hexDigit (c.toNat / 16) ++ hexDigit (c.toNat % 16)
  else String.singleton c

def jsonEscape (s : String) : String :=
  String.join (s.toList.map jsonEscapeChar)

def jsonQuote (s : String) : String :=
  "\"" ++ jsonEscape s ++ "\""

mutual

/-- Rendering of `JSON.stringify` with no spacing, as used for every stdin write in the
source (`JSON.stringify(controlResponse)`, `JSON.stringify(userMsg)`). -/
def Json.stringify : Json → String
  | Json.null => "null"
  | Json.bool true => "true"
  | Json.bool false => "false"
  | Json.str s => jsonQuote s
  | Json.num n => toString n
  | Json.arr xs => "[" ++ stringifyElems xs ++ "]"
  | Json.obj fs => "\x7b" ++ stringifyFields fs ++ "\x7d"

def stringifyElems : List Json → String
  | [] => ""
  | [x] => Json.stringify x
  | x :: y :: rest => Json.stringify x ++ "," ++ stringifyElems (y :: rest)

def stringifyFields : List (String × Json) → String
  | [] => ""
  | [(k, v)] => jsonQuote k ++ ":" ++ Json.stringify v
  | (k, v) :: p :: rest => jsonQuote k ++ ":" ++ Json.stringify v ++ "," ++ stringifyFields (p :: rest)

end

mutual

/-- JS `String(x)` for the values reaching the tool-result preview:
strings pass through, arrays join their elements with commas (recursively,
as `Array.prototype.toString` does), objects print as `[object Object]`. -/
def jsToString : Json → String
  | Json.null => "null"
  | Json.bool true => "true"
  | Json.bool false => "false"
  | Json.str s => s
  | Json.num n => toString n
  | Json.arr xs => jsToStringElems xs
  | Json.obj _ => "[object Object]"

def jsToStringElems : List Json → String
  | [] => ""
  | [x] => jsToString x
  | x :: y :: rest => jsToString x ++ "," ++ jsToStringElems (y :: rest)

end

/-! ## Data model (`src/apps/bridge/src/types.ts` and `part_004`) -/

/-- The `ProcessState` union from `part_004`. -/
inductive ProcessState where
  | idle | processing | awaiting_approval | finished | error
deriving DecidableEq

/-- The `PermissionMode` union from `types.ts`. -/
inductive PermissionMode where
  | assisted | full_ai
deriving DecidableEq

/-- The `WebChatStatus` union from `types.ts` (the manager itself only ever sets
`running`, `stopped`). -/
inductive WebChatStatus where
  | starting | running | idle | stopped | error
deriving DecidableEq

/-- The slice of a Node `ChildProcess` handle the manager inspects:
`killed` and `exitCode`. stdin is a pipe that exists for the lifetime of
the handle, so `managed.currentProcess?.stdin` being absent is modelled
as `currentProcess = none`. -/
structure ChildProc where
  killed : Bool
  exitCode : Option Int
deriving DecidableEq

/-- Here `procAlive` is the negation of the staleness test in `sendMessage`
(`!currentProcess || killed || exitCode !== null`). -/
def procAlive (p : ChildProc) : Bool :=
  !p.killed && p.exitCode.isNone

/-- The `ApprovalRequest` record from `types.ts`. -/
structure ApprovalRequest where
  request_id : String
  chat_id : String
  tool_name : String
  tool_use_id : Option String
  input : Json
  suggestions : Option Json
  timestamp : String

/-- The two approval behaviors. -/
inductive Behavior where
  | allow | deny
deriving DecidableEq

/-- The `ApprovalResponse` record from `types.ts`. -/
structure ApprovalResponse where
  request_id : String
  behavior : Behavior
  updated_input : Option Json
  message : Option String

/-- The `ManagedChat` record from `part_004`, with the `WebChat` record inlined
(only the fields the manager reads or writes are kept: `cwd` and `name`
are carried along, display-only fields such as timestamps and `pid` are
dropped; no claim concerns them). -/
structure ManagedChat where
  chatId : String
  name : String
  cwd : String
  chatStatus : WebChatStatus
  sessionId : String
  systemPrompt : Option String
  permissionMode : PermissionMode
  isProcessing : Bool
  processState : ProcessState
  messageCount : Nat
  currentProcess : Option ChildProc
  pendingApprovals : List (String × ApprovalRequest)
  autoApprove : Bool

/-- Entry payloads of the transcript events the manager emits
(`transcript_entry`). The random entry id and the timestamp are dropped
from the model; `input_preview` of the approval prompt is a display-only
re-rendering of `input` and is likewise dropped. -/
inductive TEntryContent where
  | assistantText (text : String)
  | toolUse (tool_name : Json) (tool_id : Json) (input : Json)
  | toolResult (tool_id : Json) (output : String) (is_error : Option Json)
  | logEvent (event_type : String) (message : String)
  | approvalPrompt (request_id : String) (tool_name : String)
      (tool_use_id : Option String) (input : Json)

/-- Events emitted by the manager for the transport layer (the three
`this.emit(...)` kinds); `chat_id` is implicit since the model tracks a
single session at a time, and the registry wrapper below keys by chat id. -/
inductive Event where
  | chat_status (status : String) (process_state : Option ProcessState)
      (error : Option String)
  | transcript (entry : TEntryContent)
  | approval_request (request : ApprovalRequest)

/-! ## Association-list model of the JS `Map`s

JavaScript `Map` keeps insertion order; `set` overwrites in place,
`delete` removes the unique entry of a key, iteration follows insertion
order. -/

def alistGet {α : Type} : List (String × α) → String → Option α
  | [], _ => none
  | (k, v) :: rest, key => if k = key then some v else alistGet rest key

def alistSet {α : Type} : List (String × α) → String → α → List (String × α)
  | [], key, v => [(key, v)]
  | (k, w) :: rest, key, v =>
      if k = key then (key, v) :: rest else (k, w) :: alistSet rest key v

def alistDel {α : Type} : List (String × α) → String → List (String × α)
  | [], _ => []
  | (k, w) :: rest, key => if k = key then rest else (k, w) :: alistDel rest key

/-! ## Approval sub-protocol codec (`respondToApproval`, lines 421-440) -/

def defaultDenyMessage : String := "User denied this action"

/-- The `ResultPayload` for `behavior: "allow"`, exactly as built at lines
427-432: `updatedInput` is `response.updated_input || request.input`, and
`toolUseID` echoes `request.tool_use_id` (the key is omitted by
`JSON.stringify` when the id is absent, i.e. `undefined`). -/
def allowPayload (resp : ApprovalResponse) (req : ApprovalRequest) : Json :=
  Json.obj ([("behavior", Json.str "allow"),
             ("updatedInput", jsOr resp.updated_input req.input)] ++
            (match req.tool_use_id with
             | some t => [("toolUseID", Json.str t)]
             | none => []))

/-- The `ResultPayload` for `behavior: "deny"` (lines 433-436). -/
def denyPayload (resp : ApprovalResponse) : Json :=
  Json.obj [("behavior", Json.str "deny"),
            ("message", Json.str (jsOrStr resp.message defaultDenyMessage))]

/-- The complete `control_response` envelope (lines 422-438). -/
def controlResponseJson (resp : ApprovalResponse) (req : ApprovalRequest) : Json :=
  Json.obj [("type", Json.str "control_response"),
            ("response", Json.obj
              [("subtype", Json.str "success"),
               ("request_id", Json.str resp.request_id),
               ("response",
                 if resp.behavior = Behavior.allow then allowPayload resp req
                 else denyPayload resp)])]

/-! ## Session operations (`part_004`) -/

/-- The audit log message of `respondToApproval` (line 458). -/
def approvalLogMessage (b : Behavior) (toolName : String) : String :=
  (if b = Behavior.allow then "✅" else "❌") ++ " " ++ toolName ++ ": " ++
  (if b = Behavior.allow then "allow" else "deny")

/-- Result of `respondToApproval` at the session level: post-state, emitted
events, stdin writes, and the returned boolean. -/
structure RespondResult where
  state : ManagedChat
  events : List Event
  writes : List String
  ok : Bool

/-- Model of `respondToApproval` (lines 403-464) for an already looked-up session.
Failure order as in the source: unknown request id first, then missing
stdin (i.e. no current process handle). On success the encoded envelope is
written as one line ending in a newline, the request is deleted, the state
returns to `processing`, and a status event plus an `approval_response`
audit log entry are emitted. -/
def respondToApprovalS (m : ManagedChat) (resp : ApprovalResponse) : RespondResult :=
  match alistGet m.pendingApprovals resp.request_id with
  | none => ⟨m, [], [], false⟩
  | some req =>
    match m.currentProcess with
    | none => ⟨m, [], [], false⟩
    | some _ =>
      ⟨{ m with
           pendingApprovals := alistDel m.pendingApprovals resp.request_id,
           processState := ProcessState.processing },
       [Event.chat_status "running" (some ProcessState.processing) none,
        Event.transcript (TEntryContent.logEvent "approval_response"
          (approvalLogMessage resp.behavior req.tool_name))],
       [Json.stringify (controlResponseJson resp req) ++ "\n"],
       true⟩

/-- Result of a stdout-line step: post-state, events, stdin writes. -/
structure StreamResult where
  state : ManagedChat
  events : List Event
  writes : List String

/-- The `ApprovalRequest` record built in `handleControlRequest`
(lines 328-336). A non-string `request_id`/`tool_name` is out of the
modelled protocol and collapses to `""`. -/
def approvalRequestOf (msg : Json) (chatId : String) (now : String) : ApprovalRequest :=
  { request_id := ((msg.get "request_id").bind Json.asStr).getD ""
    chat_id := chatId
    tool_name := (((msg.get "request").bind (fun r => r.get "tool_name")).bind Json.asStr).getD ""
    tool_use_id := ((msg.get "request").bind (fun r => r.get "tool_use_id")).bind Json.asStr
    input := ((msg.get "request").bind (fun r => r.get "input")).getD Json.null
    suggestions := (msg.get "request").bind (fun r => r.get "permission_suggestions")
    timestamp := now }

/-- Model of `handleControlRequest` (lines 322-398). Unknown subtypes are logged and
ignored. Under `autoApprove` the request is stored, answered through
`respondToApproval`, and an `auto_approval` log entry is appended after the
events of the response; otherwise the request is stored, the state moves to
`awaiting_approval`, and a status event, an `approval_request` notification
and an `approval_prompt` transcript entry are emitted. -/
def handleControlRequestS (msg : Json) (m : ManagedChat) (now : String) : StreamResult :=
  if !(isStrVal ((msg.get "request").bind (fun r => r.get "subtype")) "can_use_tool") then
    ⟨m, [], []⟩
  else
    let rid := ((msg.get "request_id").bind Json.asStr).getD ""
    let req := approvalRequestOf msg m.chatId now
    if m.autoApprove then
      let m1 := { m with pendingApprovals := alistSet m.pendingApprovals rid req }
      let r := respondToApprovalS m1
        { request_id := rid, behavior := Behavior.allow,
          updated_input := none, message := none }
      ⟨r.state,
       r.events ++ [Event.transcript (TEntryContent.logEvent "auto_approval"
         ("AUTO-APPROVED: " ++ req.tool_name))],
       r.writes⟩
    else
      ⟨{ m with pendingApprovals := alistSet m.pendingApprovals rid req,
                processState := ProcessState.awaiting_approval },
       [Event.chat_status "running" (some ProcessState.awaiting_approval) none,
        Event.approval_request req,
        Event.transcript (TEntryContent.approvalPrompt rid req.tool_name
          req.tool_use_id req.input)],
       []⟩

/-- One raw stdout line after `JSON.parse` inside the `try` block:
`garbage` stands for any line whose parse throws (the `catch` skips it). -/
inductive StreamLine where
  | garbage
  | json (msg : Json)

/-- The `message.content` array of a parsed line when it is an array; the loops at
lines 258 and 288 are only entered for array-valued content within the
modelled protocol. -/
def contentBlocks (msg : Json) : Option (List Json) :=
  match (msg.get "message").bind (fun mm => mm.get "content") with
  | some (Json.arr blocks) => some blocks
  | _ => none

/-- Event for one assistant content block (lines 258-283): `text` blocks
and `tool_use` blocks each yield one transcript entry; every other block
kind (in particular `thinking`) yields none. -/
def blockEvent (b : Json) : Option TEntryContent :=
  if isStrVal (b.get "type") "text" then
    match b.get "text" with
    | some (Json.str t) => some (TEntryContent.assistantText t)
    | _ => none
  else if isStrVal (b.get "type") "tool_use" then
    some (TEntryContent.toolUse ((b.get "name").getD Json.null)
      ((b.get "id").getD Json.null) ((b.get "input").getD Json.null))
  else none

/-- Events for a `user`-typed line (lines 287-305): only `content[0]` is
inspected, and only a `tool_result` first block yields an entry. -/
def userToolResultEvents (blocks : List Json) : List Event :=
  match blocks.head? with
  | some c =>
    if isStrVal (c.get "type") "tool_result" then
      [Event.transcript (TEntryContent.toolResult
        (jsOr (c.get "tool_use_id") (Json.str ""))
        ((jsToString (jsOr (c.get "content") (Json.str ""))).take 100)
        (c.get "is_error"))]
    else []
  | none => []

/-- Model of `handleStreamLine` (lines 239-317). The branch structure mirrors the
source: system/init and control requests return early; assistant and user
messages emit per-block entries without touching state; a `result` line
resets `isProcessing` and moves to `idle` with one status event; anything
else (including non-JSON garbage) falls through silently. -/
def handleStreamLineS (m : ManagedChat) (line : StreamLine) (now : String) : StreamResult :=
  match line with
  | StreamLine.garbage => ⟨m, [], []⟩
  | StreamLine.json msg =>
    if isStrVal (msg.get "type") "system" && isStrVal (msg.get "subtype") "init" then
      ⟨m, [], []⟩
    else if isStrVal (msg.get "type") "control_request" then
      handleControlRequestS msg m now
    else if isStrVal (msg.get "type") "assistant" then
      match contentBlocks msg with
      | some blocks => ⟨m, (blocks.filterMap blockEvent).map Event.transcript, []⟩
      | none => ⟨m, [], []⟩
    else if isStrVal (msg.get "type") "user" then
      match contentBlocks msg with
      | some blocks => ⟨m, userToolResultEvents blocks, []⟩
      | none => ⟨m, [], []⟩
    else if isStrVal (msg.get "type") "result" then
      ⟨{ m with isProcessing := false, processState := ProcessState.idle },
       [Event.chat_status "ready" (some ProcessState.idle) none], []⟩
    else
      ⟨m, [], []⟩

/-! ## Turn start, process lifecycle, auto-approve, registry (`part_004`) -/

/-- The fixed streaming-mode arguments (lines 128-134). -/
def baseArgs : List String :=
  ["-p", "--verbose", "--output-format", "stream-json",
   "--input-format", "stream-json", "--max-turns", "50"]

/-- Permission arguments (lines 137-142). -/
def permArgs : PermissionMode → List String
  | PermissionMode.full_ai => ["--dangerously-skip-permissions"]
  | PermissionMode.assisted =>
      ["--permission-mode", "default", "--permission-prompt-tool", "stdio"]

/-- Conversation-identity arguments (lines 144-151): a fresh conversation
(`--session-id`, plus the stored system prompt when present) on the first
message, `--resume` afterwards. Evaluated before `messageCount` is
incremented. -/
def identityArgs (m : ManagedChat) : List String :=
  if m.messageCount = 0 then
    ["--session-id", m.sessionId] ++
    (match m.systemPrompt with
     | some sp => ["--append-system-prompt", sp]
     | none => [])
  else
    ["--resume", m.sessionId]

/-- The full spawn argument list built by `sendMessage`. -/
def buildSpawnArgs (m : ManagedChat) : List String :=
  baseArgs ++ permArgs m.permissionMode ++ identityArgs m

/-- Result of `sendMessage`: post-state, events, the argument list of the
spawned process when one was spawned, and the returned boolean. -/
structure SendResult where
  state : ManagedChat
  events : List Event
  spawnedArgs : Option (List String)
  ok : Bool

/-- Model of `sendMessage` (lines 99-234) for an already looked-up session. `fresh`
is the handle of the process that `spawn` would return. The stale-flag
reset (lines 107-111), the conflict rejection (lines 113-116), and the
accepted path (state to `processing`, one status event, argument build,
`messageCount` increment, handle replacement) are modelled; the delayed
user-message stdin write and the stderr sink have no bearing on any claim
and are not part of the synchronous transition. -/
def sendMessageS (m : ManagedChat) (fresh : ChildProc) : SendResult :=
  let stale := m.isProcessing &&
    (match m.currentProcess with
     | none => true
     | some p => p.killed || p.exitCode.isSome)
  let m0 := if stale then
      { m with isProcessing := false, processState := ProcessState.idle }
    else m
  if m0.isProcessing then
    ⟨m0, [], none, false⟩
  else
    ⟨{ m0 with
         isProcessing := true,
         processState := ProcessState.processing,
         messageCount := m0.messageCount + 1,
         currentProcess := some fresh },
     [Event.chat_status "running" (some ProcessState.processing) none],
     some (buildSpawnArgs m0), true⟩

/-- The `proc.on('exit')` handler (lines 183-190): clears the processing
flag, sets `finished` (the exit code is logged but not consulted), drops
the handle, and emits one status event. `pendingApprovals` is not touched. -/
def onExitS (m : ManagedChat) : ManagedChat × List Event :=
  ({ m with isProcessing := false, processState := ProcessState.finished,
            currentProcess := none },
   [Event.chat_status "ready" (some ProcessState.finished) none])

/-- The `proc.on('error')` handler (lines 192-198). -/
def onErrorS (m : ManagedChat) (errMsg : String) : ManagedChat × List Event :=
  ({ m with isProcessing := false, processState := ProcessState.error,
            currentProcess := none },
   [Event.chat_status "error" (some ProcessState.error) (some errMsg)])

/-- Model of `stopChat` (lines 506-519) for a found session: SIGTERM the process if
one is live (Node then marks the handle `killed`), set the chat status to
`stopped`, emit one status event. `processState`, `pendingApprovals` and
the handle itself are left in place until the exit event arrives. -/
def stopChatS (m : ManagedChat) : ManagedChat × List Event :=
  let m1 :=
    match m.currentProcess with
    | some p =>
      if !p.killed then { m with currentProcess := some { p with killed := true } }
      else m
    | none => m
  ({ m1 with chatStatus := WebChatStatus.stopped },
   [Event.chat_status "stopped" none none])

/-- The loop body of `setAutoApprove` (lines 476-480): answer the listed
request ids in order with an allow decision. JS `Map` iteration visits the
initial entries in insertion order and is unaffected by `respondToApproval`
deleting the entry just visited, so iterating the snapshot of keys is
exact. -/
def respondAllS (m : ManagedChat) : List String → ManagedChat × List Event × List String
  | [] => (m, [], [])
  | k :: rest =>
    let r := respondToApprovalS m
      { request_id := k, behavior := Behavior.allow,
        updated_input := none, message := none }
    let rec' := respondAllS r.state rest
    (rec'.1, r.events ++ rec'.2.1, r.writes ++ rec'.2.2)

/-- Model of `setAutoApprove` (lines 469-483) for a found session. -/
def setAutoApproveS (m : ManagedChat) (enabled : Bool) : ManagedChat × List Event × List String :=
  let m1 := { m with autoApprove := enabled }
  if enabled && !m1.pendingApprovals.isEmpty then
    respondAllS m1 (m1.pendingApprovals.map Prod.fst)
  else
    (m1, [], [])

/-- Model of `createChat` (lines 59-94). Here `freshId` and `freshSession` stand for the
two `randomUUID()` draws; `existingSessionId || randomUUID()` makes an
empty-string argument behave like absence. A resumed session starts with
`messageCount = 1` so that the first `sendMessage` uses `--resume`. -/
def createChatS (freshId freshSession : String) (cwd : String) (name : Option String)
    (systemPrompt : Option String) (existingSessionId : Option String)
    (pm : PermissionMode) : ManagedChat :=
  let isResume :=
    match existingSessionId with
    | some s => decide (s ≠ "")
    | none => false
  { chatId := freshId
    name := jsOrStr name ("Chat " ++ freshId)
    cwd := cwd
    chatStatus := WebChatStatus.running
    sessionId := match existingSessionId with
                 | some s => if s = "" then freshSession else s
                 | none => freshSession
    systemPrompt := systemPrompt
    permissionMode := pm
    isProcessing := false
    processState := ProcessState.idle
    messageCount := if isResume then 1 else 0
    currentProcess := none
    pendingApprovals := []
    autoApprove := false }

/-- The registry's chat map (`private chats: Map<string, ManagedChat>`). -/
abbrev Registry := List (String × ManagedChat)

/-- Registry-level `respondToApproval` (lines 403-407 add the lookup; a
missing chat returns `false` with nothing emitted or written). The JS code
mutates the found record in place; writing the resulting session back at
its key models that mutation. -/
def pmRespondToApproval (reg : Registry) (chatId : String) (resp : ApprovalResponse) :
    Registry × List Event × List String × Bool :=
  match alistGet reg chatId with
  | none => (reg, [], [], false)
  | some m =>
    let r := respondToApprovalS m resp
    (alistSet reg chatId r.state, r.events, r.writes, r.ok)

/-! ## Sequences of stdout lines, and reachable session states -/

/-- Feeding a list of (line, timestamp) pairs through `handleStreamLine` in
arrival order, accumulating events in emission order (the readline
interface delivers lines one at a time, in order). -/
def processLines (m : ManagedChat) : List (StreamLine × String) → ManagedChat × List Event
  | [] => (m, [])
  | (l, now) :: rest =>
    let r := handleStreamLineS m l now
    let rest' := processLines r.state rest
    (rest'.1, r.events ++ rest'.2)

/-- A line that carries conversation content only: non-JSON garbage, an
`assistant` message or a `user` message. These lines never change the
session state. -/
def passiveLine : StreamLine → Bool
  | StreamLine.garbage => true
  | StreamLine.json msg =>
      isStrVal (msg.get "type") "assistant" || isStrVal (msg.get "type") "user"

/-- The events a passive line produces, independently of the state. -/
def pureLineEvents : StreamLine → List Event
  | StreamLine.garbage => []
  | StreamLine.json msg =>
    if isStrVal (msg.get "type") "assistant" then
      match contentBlocks msg with
      | some blocks => (blocks.filterMap blockEvent).map Event.transcript
      | none => []
    else if isStrVal (msg.get "type") "user" then
      match contentBlocks msg with
      | some blocks => userToolResultEvents blocks
      | none => []
    else []

/-- Session states reachable through the manager's operations. Stdout
lines are delivered by the readline reader attached to the live child
process, so a `line` step requires a held process handle; every other
step is unrestricted. -/
inductive Reach : ManagedChat → Prop
  | created (freshId freshSession cwd : String) (name systemPrompt existingSessionId : Option String)
      (pm : PermissionMode) :
      Reach (createChatS freshId freshSession cwd name systemPrompt existingSessionId pm)
  | send {m : ManagedChat} (fresh : ChildProc) :
      Reach m → Reach (sendMessageS m fresh).state
  | line {m : ManagedChat} (l : StreamLine) (now : String) :
      Reach m → m.currentProcess.isSome = true → Reach (handleStreamLineS m l now).state
  | respond {m : ManagedChat} (resp : ApprovalResponse) :
      Reach m → Reach (respondToApprovalS m resp).state
  | autoSet {m : ManagedChat} (enabled : Bool) :
      Reach m → Reach (setAutoApproveS m enabled).1
  | exited {m : ManagedChat} :
      Reach m → Reach (onExitS m).1
  | errored {m : ManagedChat} (errMsg : String) :
      Reach m → Reach (onErrorS m errMsg).1
  | stopped {m : ManagedChat} :
      Reach m → Reach (stopChatS m).1

/-! ## JSONL transcript parsing of the sessions route
(`src/apps/bridge/src/routes/sessions.ts`, lines 360-432) -/

/-- Transcript entries produced by the sessions route when reading the
agent's on-disk JSONL log (entry ids, timestamps and the running counters
are dropped; `tool_id` keeps the raw `tool.id`, whose random fallback for
a missing id is not modelled). -/
inductive JsonlEntry where
  | assistantText (text : String)
  | thinkingText (text : String)
  | agentSpawn (agent_type : Json) (description : Json) (prompt_preview : Option Json)
      (tool_use_id : Option Json)
  | toolUse (tool_name : Json) (tool_id : Option Json) (input : Json)

/-- Membership test `c.type === ty` on a content block. -/
def isTypeBlock (ty : String) (b : Json) : Bool :=
  isStrVal (b.get "type") ty

/-- Rendering of `content.filter(c.type === ty).map(c => c[field]).join('\n')`;
`Array.prototype.join` renders an absent value as the empty string. -/
def joinBlocks (content : List Json) (ty field : String) : String :=
  String.intercalate "\n"
    ((content.filter (isTypeBlock ty)).map
      (fun b => ((b.get field).bind Json.asStr).getD ""))

/-- Entry for one `tool_use` block of an assistant JSONL event
(lines 392-431): the designated sub-agent tool `Task` becomes an
`agent_spawn` entry carrying the sub-agent descriptor
(`subagent_type || 'unknown'`, `description || ''`, the prompt); every
other tool becomes a generic `tool_use` entry. -/
def jsonlToolEntry (tool : Json) : JsonlEntry :=
  if isStrVal (tool.get "name") "Task" then
    JsonlEntry.agentSpawn
      (jsOr ((tool.get "input").bind (fun i => i.get "subagent_type")) (Json.str "unknown"))
      (jsOr ((tool.get "input").bind (fun i => i.get "description")) (Json.str ""))
      ((tool.get "input").bind (fun i => i.get "prompt"))
      (tool.get "id")
  else
    JsonlEntry.toolUse ((tool.get "name").getD Json.null) (tool.get "id")
      ((tool.get "input").getD Json.null)

/-- Entries produced for one assistant JSONL event (lines 360-431): the
joined text blocks (when non-empty), then the joined thinking blocks
(when non-empty), then one entry per `tool_use` block in order. -/
def jsonlAssistantEntries (content : List Json) : List JsonlEntry :=
  let textContent := joinBlocks content "text" "text"
  let thinkingContent := joinBlocks content "thinking" "thinking"
  (if textContent ≠ "" then [JsonlEntry.assistantText textContent] else []) ++
  (if thinkingContent ≠ "" then [JsonlEntry.thinkingText thinkingContent] else []) ++
  (content.filter (isTypeBlock "tool_use")).map jsonlToolEntry

/-! ## Helper lemmas -/

theorem alistGet_set_self {α : Type} (l : List (String × α)) (k : String) (v : α) :
    alistGet (alistSet l k v) k = some v := by
  induction l with
  | nil => simp [alistSet, alistGet]
  | cons hd tl ih =>
    obtain ⟨k', v'⟩ := hd
    by_cases h : k' = k
    · simp [alistSet, alistGet, h]
    · simp [alistSet, alistGet, h, ih]

theorem alistGet_del_ne {α : Type} (l : List (String × α)) (k k' : String) (h : k' ≠ k) :
    alistGet (alistDel l k) k' = alistGet l k' := by
  induction l with
  | nil => simp [alistDel]
  | cons hd tl ih =>
    obtain ⟨k0, v0⟩ := hd
    by_cases h0 : k0 = k
    · subst h0
      simp [alistDel, alistGet, Ne.symm h]
    · simp only [alistDel, if_neg h0]
      by_cases h1 : k0 = k'
      · simp [alistGet, h1]
      · simp [alistGet, h1, ih]

theorem alistDel_set_fresh {α : Type} (l : List (String × α)) (k : String) (v : α)
    (h : alistGet l k = none) : alistDel (alistSet l k v) k = l := by
  induction l with
  | nil => simp [alistSet, alistDel]
  | cons hd tl ih =>
    obtain ⟨k0, v0⟩ := hd
    by_cases h0 : k0 = k
    · simp [alistGet, h0] at h
    · simp only [alistGet, if_neg h0] at h
      simp [alistSet, alistDel, h0, ih h]

theorem alistSet_of_get_eq {α : Type} (l : List (String × α)) (k : String) (v : α)
    (h : alistGet l k = some v) : alistSet l k v = l := by
  induction l with
  | nil => simp [alistGet] at h
  | cons hd tl ih =>
    obtain ⟨k0, v0⟩ := hd
    by_cases h0 : k0 = k
    · subst h0
      simp [alistGet] at h
      simp [alistSet, h]
    · simp only [alistGet, if_neg h0] at h
      simp [alistSet, h0, ih h]

theorem alistSet_ne_nil {α : Type} (l : List (String × α)) (k : String) (v : α) :
    alistSet l k v ≠ [] := by
  cases l with
  | nil => simp [alistSet]
  | cons hd tl =>
    obtain ⟨k0, v0⟩ := hd
    by_cases h0 : k0 = k <;> simp [alistSet, h0]

theorem respond_not_found (m : ManagedChat) (resp : ApprovalResponse)
    (h : alistGet m.pendingApprovals resp.request_id = none) :
    respondToApprovalS m resp = ⟨m, [], [], false⟩ := by
  simp [respondToApprovalS, h]

theorem respond_no_stdin (m : ManagedChat) (resp : ApprovalResponse) (req : ApprovalRequest)
    (hreq : alistGet m.pendingApprovals resp.request_id = some req)
    (hproc : m.currentProcess = none) :
    respondToApprovalS m resp = ⟨m, [], [], false⟩ := by
  simp [respondToApprovalS, hreq, hproc]

theorem respond_success (m : ManagedChat) (resp : ApprovalResponse) (req : ApprovalRequest)
    (p : ChildProc)
    (hreq : alistGet m.pendingApprovals resp.request_id = some req)
    (hproc : m.currentProcess = some p) :
    respondToApprovalS m resp =
      ⟨{ m with pendingApprovals := alistDel m.pendingApprovals resp.request_id,
                processState := ProcessState.processing },
       [Event.chat_status "running" (some ProcessState.processing) none,
        Event.transcript (TEntryContent.logEvent "approval_response"
          (approvalLogMessage resp.behavior req.tool_name))],
       [Json.stringify (controlResponseJson resp req) ++ "\n"],
       true⟩ := by
  simp [respondToApprovalS, hreq, hproc]

/-- After `respondToApproval` the session is either untouched (failure) or
back in `processing` (success). -/
theorem respond_state_cases (m : ManagedChat) (resp : ApprovalResponse) :
    (respondToApprovalS m resp).state = m ∨
    (respondToApprovalS m resp).state.processState = ProcessState.processing := by
  unfold respondToApprovalS
  cases hreq : alistGet m.pendingApprovals resp.request_id with
  | none => simp
  | some req =>
    cases hproc : m.currentProcess with
    | none => simp
    | some p => simp

/-! ## The awaiting-approval invariant -/

/-- Forward direction of spec invariant (b): whenever the session is in
`awaiting_approval`, at least one request is pending and the process
handle is still held. -/
def awaitingInvariant (m : ManagedChat) : Prop :=
  m.processState = ProcessState.awaiting_approval →
    m.pendingApprovals ≠ [] ∧ m.currentProcess.isSome = true

theorem inv_respond (m : ManagedChat) (resp : ApprovalResponse)
    (h : awaitingInvariant m) :
    awaitingInvariant (respondToApprovalS m resp).state := by
  rcases respond_state_cases m resp with he | hp
  · rw [he]; exact h
  · intro hA
    rw [hp] at hA
    exact ProcessState.noConfusion hA

theorem inv_respondAll (keys : List String) :
    ∀ m : ManagedChat, awaitingInvariant m →
      awaitingInvariant (respondAllS m keys).1 := by
  induction keys with
  | nil => intro m h; exact h
  | cons k rest ih =>
    intro m h
    simp only [respondAllS]
    exact ih _ (inv_respond m _ h)

theorem inv_control (msg : Json) (m : ManagedChat) (now : String)
    (hproc : m.currentProcess.isSome = true) (h : awaitingInvariant m) :
    awaitingInvariant (handleControlRequestS msg m now).state := by
  unfold handleControlRequestS
  by_cases hs : isStrVal ((msg.get "request").bind fun r => r.get "subtype") "can_use_tool"
  · simp only [hs, Bool.not_true, Bool.false_eq_true, if_false]
    by_cases hauto : m.autoApprove
    · simp only [hauto, if_true]
      apply inv_respond
      intro _
      exact ⟨alistSet_ne_nil _ _ _, hproc⟩
    · simp only [hauto, if_false]
      intro _
      exact ⟨alistSet_ne_nil _ _ _, hproc⟩
  · simp only [Bool.not_eq_true] at hs
    simp only [hs, Bool.not_false, if_true]
    exact h

theorem inv_stream (m : ManagedChat) (l : StreamLine) (now : String)
    (hproc : m.currentProcess.isSome = true) (h : awaitingInvariant m) :
    awaitingInvariant (handleStreamLineS m l now).state := by
  cases l with
  | garbage => exact h
  | json msg =>
    unfold handleStreamLineS
    by_cases h1 : (isStrVal (msg.get "type") "system" && isStrVal (msg.get "subtype") "init") = true
    · simp only [h1, if_true]; exact h
    · simp only [h1, if_false]
      by_cases h2 : isStrVal (msg.get "type") "control_request"
      · simp only [h2, if_true]
        exact inv_control msg m now hproc h
      · simp only [h2, if_false]
        by_cases h3 : isStrVal (msg.get "type") "assistant"
        · simp only [h3, if_true]
          cases contentBlocks msg <;> exact h
        · simp only [h3, if_false]
          by_cases h4 : isStrVal (msg.get "type") "user"
          · simp only [h4, if_true]
            cases contentBlocks msg <;> exact h
          · simp only [h4, if_false]
            by_cases h5 : isStrVal (msg.get "type") "result"
            · simp only [h5, if_true]
              intro hA
              exact ProcessState.noConfusion hA
            · simp only [h5, if_false]
              exact h

/-- Dichotomy: `sendMessage` leaves the session as it was (conflict rejection), or in
`processing` (accepted). The stale-reset path always continues into
acceptance, because the reset clears the flag that rejection tests. -/
theorem send_state_cases (m : ManagedChat) (fresh : ChildProc) :
    (sendMessageS m fresh).state = m ∨
    (sendMessageS m fresh).state.processState = ProcessState.processing := by
  cases hp : m.isProcessing with
  | false => right; simp [sendMessageS, hp]
  | true =>
    cases hc : m.currentProcess with
    | none => right; simp [sendMessageS, hp, hc]
    | some p =>
      cases hk : p.killed with
      | true => right; simp [sendMessageS, hp, hc, hk]
      | false =>
        cases he : p.exitCode with
        | none => left; simp [sendMessageS, hp, hc, hk, he]
        | some c => right; simp [sendMessageS, hp, hc, hk, he]

theorem inv_send (m : ManagedChat) (fresh : ChildProc) (h : awaitingInvariant m) :
    awaitingInvariant (sendMessageS m fresh).state := by
  rcases send_state_cases m fresh with he | hs
  · rw [he]; exact h
  · intro hA
    rw [hs] at hA
    exact ProcessState.noConfusion hA

theorem inv_autoSet (m : ManagedChat) (enabled : Bool) (h : awaitingInvariant m) :
    awaitingInvariant (setAutoApproveS m enabled).1 := by
  have h1 : awaitingInvariant { m with autoApprove := enabled } := by
    intro hA
    exact h hA
  unfold setAutoApproveS
  by_cases hcond : (enabled && !({ m with autoApprove := enabled }.pendingApprovals.isEmpty)) = true
  · simp only [hcond, if_true]
    exact inv_respondAll _ _ h1
  · simp only [hcond, if_false]
    exact h1

theorem inv_exit (m : ManagedChat) :
    awaitingInvariant (onExitS m).1 := by
  intro hA
  exact ProcessState.noConfusion hA

theorem inv_error (m : ManagedChat) (errMsg : String) :
    awaitingInvariant (onErrorS m errMsg).1 := by
  intro hA
  exact ProcessState.noConfusion hA

theorem inv_stop (m : ManagedChat) (h : awaitingInvariant m) :
    awaitingInvariant (stopChatS m).1 := by
  unfold stopChatS
  cases hc : m.currentProcess with
  | none =>
    intro hA
    simp only at hA
    rcases h hA with ⟨h1, h2⟩
    rw [hc] at h2
    exact absurd h2 (by simp)
  | some p =>
    by_cases hk : p.killed
    · simp only [hk, Bool.not_true, Bool.false_eq_true, if_false]
      intro hA
      exact h hA
    · simp only [hk, Bool.not_false, if_true]
      intro hA
      rcases h hA with ⟨h1, _⟩
      exact ⟨h1, by simp⟩

/-- Every reachable session state satisfies the forward implication of
invariant (b). -/
theorem reach_awaitingInvariant (m : ManagedChat) (hr : Reach m) :
    awaitingInvariant m := by
  induction hr with
  | created freshId freshSession cwd name systemPrompt existingSessionId pm =>
    intro hA
    simp [createChatS] at hA
  | send fresh _ ih => exact inv_send _ fresh ih
  | line l now _ hproc ih => exact inv_stream _ l now hproc ih
  | respond resp _ ih => exact inv_respond _ resp ih
  | autoSet enabled _ ih => exact inv_autoSet _ enabled ih
  | exited _ _ => exact inv_exit _
  | errored errMsg _ _ => exact inv_error _ errMsg
  | stopped _ ih => exact inv_stop _ ih

/-! ## Claim C1 — exact control-response wire format -/

/-- The `ResultPayload` exactly as the spec words it in section 4.2:
`behavior`/`updatedInput`/`toolUseID` for allow (the input echoed, or the
caller-supplied edited input), `behavior`/`message` for deny (the caller's
message, or the default reason when none is given). Written from the
spec's words, to be compared with the code's `controlResponseJson`. -/
def specResultPayload (resp : ApprovalResponse) (req : ApprovalRequest) : Json :=
  match resp.behavior with
  | Behavior.allow =>
      Json.obj ([("behavior", Json.str "allow"),
                 ("updatedInput", resp.updated_input.getD req.input)] ++
                (match req.tool_use_id with
                 | some t => [("toolUseID", Json.str t)]
                 | none => []))
  | Behavior.deny =>
      Json.obj [("behavior", Json.str "deny"),
                ("message", Json.str (resp.message.getD defaultDenyMessage))]

/-- The full spec envelope of section 4.2, rendered as one JSON line
terminated by a newline. -/
def specControlResponseLine (resp : ApprovalResponse) (req : ApprovalRequest) : String :=
  Json.stringify (Json.obj
    [("type", Json.str "control_response"),
     ("response", Json.obj
       [("subtype", Json.str "success"),
        ("request_id", Json.str resp.request_id),
        ("response", specResultPayload resp req)])]) ++ "\n"

theorem code_payload_eq_spec (resp : ApprovalResponse) (req : ApprovalRequest)
    (hupd : ∀ v, resp.updated_input = some v → jsTruthy v = true)
    (hmsg : ∀ s, resp.message = some s → s ≠ "") :
    (if resp.behavior = Behavior.allow then allowPayload resp req else denyPayload resp) =
      specResultPayload resp req := by
  cases hb : resp.behavior with
  | allow =>
    simp only [if_pos rfl, allowPayload, specResultPayload, hb]
    cases hu : resp.updated_input with
    | none => simp [jsOr]
    | some v => simp [jsOr, hupd v hu]
  | deny =>
    simp only [specResultPayload, hb]
    rw [if_neg (by simp)]
    simp only [denyPayload]
    cases hm : resp.message with
    | none => simp [jsOrStr]
    | some s => simp [jsOrStr, hmsg s hm]

/-- Claim C1: for every approval decision sent via `respondToApproval`,
the line written to the child's stdin is exactly the spec's envelope
`control_response / success / request_id / ResultPayload`, where the
allow payload carries `updatedInput` (the request's input, or the edited
input the caller supplied) and the echoed `toolUseID`, and the deny
payload carries the caller's message or the default reason — one JSON
line terminated by a newline, for both allow and deny. (The caller-side
hypotheses rule out the degenerate JS-falsy inputs — an empty-string
message or a falsy edited input — which the `||` fallbacks in the source
treat as absent.) -/
theorem C1_control_response_wire_format (m : ManagedChat) (resp : ApprovalResponse)
    (req : ApprovalRequest) (p : ChildProc)
    (hreq : alistGet m.pendingApprovals resp.request_id = some req)
    (hproc : m.currentProcess = some p)
    (hupd : ∀ v, resp.updated_input = some v → jsTruthy v = true)
    (hmsg : ∀ s, resp.message = some s → s ≠ "") :
    (respondToApprovalS m resp).writes = [specControlResponseLine resp req] ∧
    (respondToApprovalS m resp).ok = true := by
  rw [respond_success m resp req p hreq hproc]
  refine ⟨?_, rfl⟩
  simp only [specControlResponseLine, controlResponseJson,
    code_payload_eq_spec resp req hupd hmsg]

def c1req : ApprovalRequest :=
  { request_id := "r1", chat_id := "c1", tool_name := "Bash",
    tool_use_id := some "tu1",
    input := Json.obj [("command", Json.str "ls")],
    suggestions := none, timestamp := "t0" }

def c1chat : ManagedChat :=
  { chatId := "c1", name := "Chat c1", cwd := "/w",
    chatStatus := WebChatStatus.running, sessionId := "s1",
    systemPrompt := none, permissionMode := PermissionMode.assisted,
    isProcessing := true, processState := ProcessState.awaiting_approval,
    messageCount := 1, currentProcess := some ⟨false, none⟩,
    pendingApprovals := [("r1", c1req)], autoApprove := false }

def c1resp : ApprovalResponse :=
  { request_id := "r1", behavior := Behavior.allow,
    updated_input := none, message := none }

/-- Witness for C1 at a concrete allow decision; the last conjunct pins
the wire line down to its literal bytes. -/
theorem C1_control_response_wire_format_witness :
    alistGet c1chat.pendingApprovals c1resp.request_id = some c1req ∧
    c1chat.currentProcess = some ⟨false, none⟩ ∧
    ((respondToApprovalS c1chat c1resp).writes = [specControlResponseLine c1resp c1req] ∧
     (respondToApprovalS c1chat c1resp).ok = true) ∧
    specControlResponseLine c1resp c1req =
      "\x7b\"type\":\"control_response\",\"response\":\x7b\"subtype\":\"success\",\"request_id\":\"r1\",\"response\":\x7b\"behavior\":\"allow\",\"updatedInput\":\x7b\"command\":\"ls\"\x7d,\"toolUseID\":\"tu1\"\x7d\x7d\x7d\n" := by
  refine ⟨rfl, rfl, ?_, ?_⟩
  · exact C1_control_response_wire_format c1chat c1resp c1req ⟨false, none⟩ rfl rfl
      (fun v hv => by cases hv) (fun s hs => by cases hs)
  · rfl

/-! ## Claim C10 — respondToApproval is atomic on failure -/

/-- Claim C10: for every call where the chat id is unknown, or the request
id is not pending, or the session holds no live child-process stdin,
`respondToApproval` returns false and leaves the registry (hence the
session's `pendingApprovals` and `processState`) unchanged, emitting no
event and writing nothing to stdin. -/
theorem C10_respond_atomic_on_failure (reg : Registry) (chatId : String)
    (resp : ApprovalResponse) :
    (alistGet reg chatId = none →
      pmRespondToApproval reg chatId resp = (reg, [], [], false)) ∧
    (∀ m, alistGet reg chatId = some m →
      alistGet m.pendingApprovals resp.request_id = none →
      pmRespondToApproval reg chatId resp = (reg, [], [], false)) ∧
    (∀ m req, alistGet reg chatId = some m →
      alistGet m.pendingApprovals resp.request_id = some req →
      m.currentProcess = none →
      pmRespondToApproval reg chatId resp = (reg, [], [], false)) := by
  refine ⟨?_, ?_, ?_⟩
  · intro h
    simp [pmRespondToApproval, h]
  · intro m hm hr
    simp [pmRespondToApproval, hm, respond_not_found m resp hr,
      alistSet_of_get_eq reg chatId m hm]
  · intro m req hm hr hp
    simp [pmRespondToApproval, hm, respond_no_stdin m resp req hr hp,
      alistSet_of_get_eq reg chatId m hm]

def c10req : ApprovalRequest :=
  { request_id := "rX", chat_id := "cC", tool_name := "Write",
    tool_use_id := none, input := Json.obj [], suggestions := none,
    timestamp := "t1" }

def c10resp : ApprovalResponse :=
  { request_id := "rX", behavior := Behavior.deny,
    updated_input := none, message := none }

def c10chatEmpty : ManagedChat :=
  { chatId := "cB", name := "Chat cB", cwd := "/w",
    chatStatus := WebChatStatus.running, sessionId := "sB",
    systemPrompt := none, permissionMode := PermissionMode.assisted,
    isProcessing := true, processState := ProcessState.processing,
    messageCount := 1, currentProcess := some ⟨false, none⟩,
    pendingApprovals := [], autoApprove := false }

def c10chatNoProc : ManagedChat :=
  { chatId := "cC", name := "Chat cC", cwd := "/w",
    chatStatus := WebChatStatus.running, sessionId := "sC",
    systemPrompt := none, permissionMode := PermissionMode.assisted,
    isProcessing := false, processState := ProcessState.finished,
    messageCount := 1, currentProcess := none,
    pendingApprovals := [("rX", c10req)], autoApprove := false }

/-- Witness for C10: all three failure shapes at concrete inputs. -/
theorem C10_respond_atomic_on_failure_witness :
    (alistGet ([] : Registry) "c0" = none ∧
      pmRespondToApproval [] "c0" c10resp = ([], [], [], false)) ∧
    (alistGet [("cB", c10chatEmpty)] "cB" = some c10chatEmpty ∧
      alistGet c10chatEmpty.pendingApprovals "rX" = none ∧
      pmRespondToApproval [("cB", c10chatEmpty)] "cB" c10resp =
        ([("cB", c10chatEmpty)], [], [], false)) ∧
    (alistGet [("cC", c10chatNoProc)] "cC" = some c10chatNoProc ∧
      alistGet c10chatNoProc.pendingApprovals "rX" = some c10req ∧
      c10chatNoProc.currentProcess = none ∧
      pmRespondToApproval [("cC", c10chatNoProc)] "cC" c10resp =
        ([("cC", c10chatNoProc)], [], [], false)) :=
  ⟨⟨rfl, (C10_respond_atomic_on_failure [] "c0" c10resp).1 rfl⟩,
   ⟨rfl, rfl, (C10_respond_atomic_on_failure [("cB", c10chatEmpty)] "cB" c10resp).2.1
      c10chatEmpty rfl rfl⟩,
   ⟨rfl, rfl, rfl, (C10_respond_atomic_on_failure [("cC", c10chatNoProc)] "cC" c10resp).2.2
      c10chatNoProc c10req rfl rfl rfl⟩⟩

/-! ## Claim C3 — at most one turn in flight -/

/-- Claim C3: a `sendMessage` while a turn is in flight (flag set and the
previous child still alive) is rejected — returning false with the state,
event stream and spawn untouched, not crashing — and an accepted call that
found the in-flight flag set can only have replaced a process that was
already dead or gone, so two child processes are never live at once for
one session. -/
theorem C3_single_turn_in_flight :
    (∀ (m : ManagedChat) (p fresh : ChildProc),
      m.isProcessing = true → m.currentProcess = some p → procAlive p = true →
      sendMessageS m fresh = ⟨m, [], none, false⟩) ∧
    (∀ (m : ManagedChat) (fresh : ChildProc),
      (sendMessageS m fresh).ok = true → m.isProcessing = true →
      m.currentProcess = none ∨
        ∃ p, m.currentProcess = some p ∧ procAlive p = false) := by
  constructor
  · intro m p fresh hp hc ha
    have hk : p.killed = false := by
      simp [procAlive] at ha
      exact ha.1
    have he : p.exitCode = none := by
      simp [procAlive, Option.isNone_iff_eq_none] at ha
      exact ha.2
    simp [sendMessageS, hp, hc, hk, he]
  · intro m fresh hok hp
    cases hc : m.currentProcess with
    | none => exact Or.inl rfl
    | some p =>
      right
      refine ⟨p, rfl, ?_⟩
      by_contra hdead
      have ha : procAlive p = true := by
        cases hpa : procAlive p
        · exact absurd hpa hdead
        · rfl
      have hk : p.killed = false := by
        simp [procAlive] at ha
        exact ha.1
      have he : p.exitCode = none := by
        simp [procAlive, Option.isNone_iff_eq_none] at ha
        exact ha.2
      rw [show sendMessageS m fresh = ⟨m, [], none, false⟩ from by
        simp [sendMessageS, hp, hc, hk, he]] at hok
      exact Bool.noConfusion hok

def c3chatBusy : ManagedChat :=
  { chatId := "c3", name := "Chat c3", cwd := "/w",
    chatStatus := WebChatStatus.running, sessionId := "s3",
    systemPrompt := none, permissionMode := PermissionMode.assisted,
    isProcessing := true, processState := ProcessState.processing,
    messageCount := 1, currentProcess := some ⟨false, none⟩,
    pendingApprovals := [], autoApprove := false }

def c3chatStale : ManagedChat :=
  { c3chatBusy with currentProcess := none }

/-- Witness for C3: the concrete busy session rejects a second send, and a
concrete accepted-despite-flag send had no live prior process. -/
theorem C3_single_turn_in_flight_witness :
    (c3chatBusy.isProcessing = true ∧
     c3chatBusy.currentProcess = some ⟨false, none⟩ ∧
     procAlive ⟨false, none⟩ = true ∧
     sendMessageS c3chatBusy ⟨false, none⟩ = ⟨c3chatBusy, [], none, false⟩) ∧
    ((sendMessageS c3chatStale ⟨false, none⟩).ok = true ∧
     c3chatStale.isProcessing = true ∧
     (c3chatStale.currentProcess = none ∨
       ∃ p, c3chatStale.currentProcess = some p ∧ procAlive p = false)) :=
  ⟨⟨rfl, rfl, rfl,
    C3_single_turn_in_flight.1 c3chatBusy ⟨false, none⟩ ⟨false, none⟩ rfl rfl rfl⟩,
   ⟨rfl, rfl,
    C3_single_turn_in_flight.2 c3chatStale ⟨false, none⟩ rfl rfl⟩⟩

/-! ## Claims C2 and C4 — process exit and the awaiting-approval biconditional -/

/-- A `can_use_tool` control-request line as the child emits it. -/
def ctrlLine (rid tool : String) : Json :=
  Json.obj [("type", Json.str "control_request"),
            ("request_id", Json.str rid),
            ("request", Json.obj [("subtype", Json.str "can_use_tool"),
                                  ("tool_name", Json.str tool),
                                  ("input", Json.obj [])])]

/-- A fresh assisted chat, a first message, two control requests, then the
child dies: the concrete scenario of the spec's process-death test. -/
def c2s0 : ManagedChat :=
  createChatS "c2" "sess2" "/w" none none none PermissionMode.assisted

def c2s1 : ManagedChat := (sendMessageS c2s0 ⟨false, none⟩).state

def c2s2 : ManagedChat :=
  (handleStreamLineS c2s1 (StreamLine.json (ctrlLine "req-1" "Bash")) "t1").state

def c2s3 : ManagedChat :=
  (handleStreamLineS c2s2 (StreamLine.json (ctrlLine "req-2" "Write")) "t2").state

def c2s4 : ManagedChat := (onExitS c2s3).1

theorem c2s0_reach : Reach c2s0 :=
  Reach.created "c2" "sess2" "/w" none none none PermissionMode.assisted

theorem c2s1_reach : Reach c2s1 := Reach.send ⟨false, none⟩ c2s0_reach

theorem c2s2_reach : Reach c2s2 :=
  Reach.line (StreamLine.json (ctrlLine "req-1" "Bash")) "t1" c2s1_reach rfl

theorem c2s3_reach : Reach c2s3 :=
  Reach.line (StreamLine.json (ctrlLine "req-2" "Write")) "t2" c2s2_reach rfl

/-- Counterexample to C2: the child of a reachable session dies while two
approvals are pending in `awaiting_approval`; afterwards both requests are
still in `pendingApprovals` (nothing is dropped), the state is `finished`
(never `error`, whatever the exit code, which the handler ignores), and a
`respondToApproval` for a stale id fails not because the id is unknown —
it is still found — but because no stdin is left. -/
theorem C2_counterexample :
    Reach c2s4 ∧
    c2s3.processState = ProcessState.awaiting_approval ∧
    c2s4.processState = ProcessState.finished ∧
    c2s4.pendingApprovals.map Prod.fst = ["req-1", "req-2"] ∧
    (alistGet c2s4.pendingApprovals "req-1").isSome = true ∧
    (respondToApprovalS c2s4
      { request_id := "req-1", behavior := Behavior.allow,
        updated_input := none, message := none }).ok = false := by
  refine ⟨Reach.exited c2s3_reach, rfl, rfl, rfl, rfl, rfl⟩

/-- Claim C2, amended by the counterexample: when the child exits while
`turnState` is `processing` or `awaitingApproval`, the handler sets
`finished` regardless of the exit code, releases the process handle, and
emits a single status event; `pendingApprovals` is left untouched, and a
subsequent `respondToApproval` for any request id fails (returns false
with nothing written, emitted or changed) because no stdin is available —
not with a not-found signal. -/
theorem C2_amended_exit_behavior (m : ManagedChat)
    (_h : m.processState = ProcessState.processing ∨
          m.processState = ProcessState.awaiting_approval) :
    (onExitS m).1.processState = ProcessState.finished ∧
    (onExitS m).1.currentProcess = none ∧
    (onExitS m).1.pendingApprovals = m.pendingApprovals ∧
    (onExitS m).2 = [Event.chat_status "ready" (some ProcessState.finished) none] ∧
    (∀ resp, respondToApprovalS (onExitS m).1 resp = ⟨(onExitS m).1, [], [], false⟩) := by
  refine ⟨rfl, rfl, rfl, rfl, ?_⟩
  intro resp
  cases hr : alistGet (onExitS m).1.pendingApprovals resp.request_id with
  | none => exact respond_not_found _ resp hr
  | some req => exact respond_no_stdin _ resp req hr rfl

/-- Witness for the amended C2 at the concrete dead-mid-turn session. -/
theorem C2_amended_exit_behavior_witness :
    (c2s3.processState = ProcessState.processing ∨
     c2s3.processState = ProcessState.awaiting_approval) ∧
    ((onExitS c2s3).1.processState = ProcessState.finished ∧
     (onExitS c2s3).1.currentProcess = none ∧
     (onExitS c2s3).1.pendingApprovals = c2s3.pendingApprovals ∧
     (onExitS c2s3).2 = [Event.chat_status "ready" (some ProcessState.finished) none] ∧
     (∀ resp, respondToApprovalS (onExitS c2s3).1 resp = ⟨(onExitS c2s3).1, [], [], false⟩)) :=
  ⟨Or.inr rfl, C2_amended_exit_behavior c2s3 (Or.inr rfl)⟩

def c4resp : ApprovalResponse :=
  { request_id := "req-1", behavior := Behavior.allow,
    updated_input := none, message := none }

/-- Answering the first of the two pending approvals. -/
def c4s : ManagedChat := (respondToApprovalS c2s3 c4resp).state

/-- Counterexample to C4: in this reachable state one approval is still
pending and the child is alive, yet `turnState` is `processing`, not
`awaitingApproval` — answering one approval among several flips the state
back unconditionally, so the biconditional fails. -/
theorem C4_counterexample :
    Reach c4s ∧
    c4s.pendingApprovals ≠ [] ∧
    c4s.currentProcess.isSome = true ∧
    c4s.processState ≠ ProcessState.awaiting_approval := by
  have hlen : c4s.pendingApprovals.length = 1 := rfl
  have hps : c4s.processState = ProcessState.processing := rfl
  refine ⟨Reach.respond c4resp c2s3_reach, ?_, rfl, ?_⟩
  · intro h
    rw [h] at hlen
    exact Nat.noConfusion hlen
  · intro h
    rw [hps] at h
    exact ProcessState.noConfusion h

/-- Claim C4, amended by the counterexample: only the forward implication
holds in every reachable state — `turnState = awaitingApproval` implies a
non-empty `pendingApprovals` and a held process handle. The converse is
false: answering one of several pending approvals sets `processing` while
requests remain pending on a live process. -/
theorem C4_amended_awaiting_forward (m : ManagedChat) (hr : Reach m)
    (hA : m.processState = ProcessState.awaiting_approval) :
    m.pendingApprovals ≠ [] ∧ m.currentProcess.isSome = true :=
  reach_awaitingInvariant m hr hA

/-- Witness for the amended C4 at the concrete awaiting session. -/
theorem C4_amended_awaiting_forward_witness :
    c2s2.processState = ProcessState.awaiting_approval ∧
    (c2s2.pendingApprovals ≠ [] ∧ c2s2.currentProcess.isSome = true) :=
  ⟨rfl, C4_amended_awaiting_forward c2s2 c2s2_reach rfl⟩

/-! ## Claims C5 and C6 — block expansion, ordering, unknown-input tolerance -/

theorem isStrVal_ne {j : Option Json} {s : String} (h : isStrVal j s = true)
    {s' : String} (hne : s' ≠ s) : isStrVal j s' = false := by
  cases j with
  | none => simp [isStrVal] at h
  | some v =>
    cases v with
    | str t =>
      simp [isStrVal] at h
      subst h
      simp [isStrVal]
      exact fun hc => hne hc.symm
    | null => simp [isStrVal] at h
    | bool b => simp [isStrVal] at h
    | num n => simp [isStrVal] at h
    | arr xs => simp [isStrVal] at h
    | obj fs => simp [isStrVal] at h

theorem assistant_line_events (m : ManagedChat) (now : String) (msg : Json)
    (blocks : List Json)
    (hA : isStrVal (msg.get "type") "assistant" = true)
    (hb : contentBlocks msg = some blocks) :
    handleStreamLineS m (StreamLine.json msg) now =
      ⟨m, (blocks.filterMap blockEvent).map Event.transcript, []⟩ := by
  have h1 := isStrVal_ne hA (show "system" ≠ "assistant" by decide)
  have h2 := isStrVal_ne hA (show "control_request" ≠ "assistant" by decide)
  simp only [handleStreamLineS, h1, h2, hA, hb, Bool.false_and,
    Bool.false_eq_true, if_false, if_true]

theorem user_line_events (m : ManagedChat) (now : String) (msg : Json)
    (blocks : List Json)
    (hU : isStrVal (msg.get "type") "user" = true)
    (hb : contentBlocks msg = some blocks) :
    handleStreamLineS m (StreamLine.json msg) now =
      ⟨m, userToolResultEvents blocks, []⟩ := by
  have h1 := isStrVal_ne hU (show "system" ≠ "user" by decide)
  have h2 := isStrVal_ne hU (show "control_request" ≠ "user" by decide)
  have h3 := isStrVal_ne hU (show "assistant" ≠ "user" by decide)
  simp only [handleStreamLineS, h1, h2, h3, hU, hb, Bool.false_and,
    Bool.false_eq_true, if_false, if_true]

theorem passive_step (m : ManagedChat) (l : StreamLine) (now : String)
    (h : passiveLine l = true) :
    handleStreamLineS m l now = ⟨m, pureLineEvents l, []⟩ := by
  cases l with
  | garbage => rfl
  | json msg =>
    simp only [passiveLine, Bool.or_eq_true] at h
    rcases h with hA | hU
    · cases hb : contentBlocks msg with
      | some blocks =>
        rw [assistant_line_events m now msg blocks hA hb]
        simp only [pureLineEvents, hA, hb, if_true]
      | none =>
        have h1 := isStrVal_ne hA (show "system" ≠ "assistant" by decide)
        have h2 := isStrVal_ne hA (show "control_request" ≠ "assistant" by decide)
        simp only [handleStreamLineS, pureLineEvents, h1, h2, hA, hb,
          Bool.false_and, Bool.false_eq_true, if_false, if_true]
    · have h3 := isStrVal_ne hU (show "assistant" ≠ "user" by decide)
      cases hb : contentBlocks msg with
      | some blocks =>
        rw [user_line_events m now msg blocks hU hb]
        simp only [pureLineEvents, h3, hU, hb, Bool.false_eq_true, if_false, if_true]
      | none =>
        have h1 := isStrVal_ne hU (show "system" ≠ "user" by decide)
        have h2 := isStrVal_ne hU (show "control_request" ≠ "user" by decide)
        simp only [handleStreamLineS, pureLineEvents, h1, h2, h3, hU, hb,
          Bool.false_and, Bool.false_eq_true, if_false, if_true]

theorem processLines_passive (ls : List (StreamLine × String)) :
    ∀ m : ManagedChat, (∀ p ∈ ls, passiveLine p.1 = true) →
      processLines m ls = (m, ls.flatMap (fun p => pureLineEvents p.1)) := by
  induction ls with
  | nil => intro m _; rfl
  | cons hd tl ih =>
    intro m hall
    obtain ⟨l, now⟩ := hd
    have hl : passiveLine l = true := hall (l, now) (by simp)
    have htl : ∀ p ∈ tl, passiveLine p.1 = true := fun p hp => hall p (by simp [hp])
    simp only [processLines, passive_step m l now hl, ih m htl, List.flatMap_cons]

/-- The thinking-only assistant line of the counterexample. -/
def c5block : Json :=
  Json.obj [("type", Json.str "thinking"), ("thinking", Json.str "planning the edit")]

def c5msg : Json :=
  Json.obj [("type", Json.str "assistant"),
            ("message", Json.obj [("content", Json.arr [c5block])])]

/-- Counterexample to C5: an assistant line carrying exactly one content
block — a `thinking` block — produces no transcript event at all, not one
event per block: the handler has no branch for `thinking`. (The user-line
restriction to `content[0]` is covered by the amended theorem.) -/
theorem C5_counterexample :
    contentBlocks c5msg = some [c5block] ∧
    handleStreamLineS c2s1 (StreamLine.json c5msg) "t" = ⟨c2s1, [], []⟩ :=
  ⟨rfl, rfl⟩

/-- Claim C5, amended by the counterexample: for assistant lines the
handler emits one event per `text` or `tool_use` block, in block order —
`thinking` blocks are dropped; for `user`-typed lines only the first
content block is inspected, yielding one `tool_result` event when it is
one; and over any sequence of such content lines the emitted events
preserve intra-line block order first and inter-line arrival order second,
with no reordering or coalescing of the events that are emitted. -/
theorem C5_amended_block_events_in_order :
    (∀ (m : ManagedChat) (now : String) (msg : Json) (blocks : List Json),
      isStrVal (msg.get "type") "assistant" = true →
      contentBlocks msg = some blocks →
      handleStreamLineS m (StreamLine.json msg) now =
        ⟨m, (blocks.filterMap blockEvent).map Event.transcript, []⟩) ∧
    (∀ b : Json, isStrVal (b.get "type") "thinking" = true → blockEvent b = none) ∧
    (∀ (m : ManagedChat) (now : String) (msg : Json) (blocks : List Json),
      isStrVal (msg.get "type") "user" = true →
      contentBlocks msg = some blocks →
      handleStreamLineS m (StreamLine.json msg) now =
        ⟨m, userToolResultEvents blocks, []⟩) ∧
    (∀ (m : ManagedChat) (ls : List (StreamLine × String)),
      (∀ p ∈ ls, passiveLine p.1 = true) →
      processLines m ls = (m, ls.flatMap (fun p => pureLineEvents p.1))) := by
  refine ⟨assistant_line_events, ?_, user_line_events,
    fun m ls hall => processLines_passive ls m hall⟩
  intro b hb
  have h1 := isStrVal_ne hb (show "text" ≠ "thinking" by decide)
  have h2 := isStrVal_ne hb (show "tool_use" ≠ "thinking" by decide)
  simp only [blockEvent, h1, h2, Bool.false_eq_true, if_false]

def c5toolBlock : Json :=
  Json.obj [("type", Json.str "tool_use"), ("name", Json.str "Bash"),
            ("id", Json.str "tu9"),
            ("input", Json.obj [("command", Json.str "pwd")])]

def c5textBlock : Json :=
  Json.obj [("type", Json.str "text"), ("text", Json.str "running it now")]

def c5msg2 : Json :=
  Json.obj [("type", Json.str "assistant"),
            ("message", Json.obj [("content", Json.arr [c5textBlock, c5block, c5toolBlock])])]

def c5userBlock : Json :=
  Json.obj [("type", Json.str "tool_result"), ("tool_use_id", Json.str "tu9"),
            ("content", Json.str "/w")]

def c5userMsg : Json :=
  Json.obj [("type", Json.str "user"),
            ("message", Json.obj [("content", Json.arr [c5userBlock])])]

/-- Witness for the amended C5: a three-block assistant line (text,
thinking, tool_use) emits exactly the text event then the tool event in
that order; a user tool_result line emits its single event; and the
two-line sequence emits the four-event concatenation in arrival order. -/
theorem C5_amended_block_events_in_order_witness :
    isStrVal (c5msg2.get "type") "assistant" = true ∧
    contentBlocks c5msg2 = some [c5textBlock, c5block, c5toolBlock] ∧
    handleStreamLineS c2s1 (StreamLine.json c5msg2) "t" =
      ⟨c2s1, [Event.transcript (TEntryContent.assistantText "running it now"),
              Event.transcript (TEntryContent.toolUse (Json.str "Bash") (Json.str "tu9")
                (Json.obj [("command", Json.str "pwd")]))], []⟩ ∧
    isStrVal (c5block.get "type") "thinking" = true ∧
    blockEvent c5block = none ∧
    isStrVal (c5userMsg.get "type") "user" = true ∧
    contentBlocks c5userMsg = some [c5userBlock] ∧
    handleStreamLineS c2s1 (StreamLine.json c5userMsg) "t" =
      ⟨c2s1, [Event.transcript (TEntryContent.toolResult (Json.str "tu9") "/w"
               (c5userBlock.get "is_error"))], []⟩ ∧
    (∀ p ∈ [(StreamLine.json c5msg2, "t1"), (StreamLine.json c5userMsg, "t2")],
      passiveLine p.1 = true) ∧
    processLines c2s1 [(StreamLine.json c5msg2, "t1"), (StreamLine.json c5userMsg, "t2")] =
      (c2s1, pureLineEvents (StreamLine.json c5msg2) ++
             pureLineEvents (StreamLine.json c5userMsg)) := by
  have hall : ∀ p ∈ [(StreamLine.json c5msg2, "t1"), (StreamLine.json c5userMsg, "t2")],
      passiveLine p.1 = true := by
    intro p hp
    simp only [List.mem_cons, List.not_mem_nil, or_false] at hp
    rcases hp with h | h <;> (subst h; rfl)
  refine ⟨rfl, rfl, ?_, rfl, ?_, rfl, rfl, ?_, hall, ?_⟩
  · rw [C5_amended_block_events_in_order.1 c2s1 "t" c5msg2
      [c5textBlock, c5block, c5toolBlock] rfl rfl]
    rfl
  · exact C5_amended_block_events_in_order.2.1 c5block rfl
  · rw [C5_amended_block_events_in_order.2.2.1 c2s1 "t" c5userMsg [c5userBlock] rfl rfl]
    have hs : ("/w" : String).take 100 = "/w" := by decide
    have hev : userToolResultEvents [c5userBlock] =
        [Event.transcript (TEntryContent.toolResult (Json.str "tu9") ("/w".take 100)
          (c5userBlock.get "is_error"))] := rfl
    rw [hev, hs]
  · rw [C5_amended_block_events_in_order.2.2.2 c2s1
      [(StreamLine.json c5msg2, "t1"), (StreamLine.json c5userMsg, "t2")] hall]
    rfl

/-- Claim C6: feeding the stream-line handler non-JSON garbage, a JSON
value with an unrecognized `type` discriminator, or a `control_request`
whose request subtype is not `can_use_tool` never throws (the handler is a
total function), emits no event, writes nothing, and leaves the session —
`turnState`, `pendingApprovals` and all — unchanged. -/
theorem C6_unknown_input_tolerance (m : ManagedChat) (now : String) :
    (handleStreamLineS m StreamLine.garbage now = ⟨m, [], []⟩) ∧
    (∀ (msg : Json) (t : String), msg.get "type" = some (Json.str t) →
      t ∉ (["system", "control_request", "assistant", "user", "result"] : List String) →
      handleStreamLineS m (StreamLine.json msg) now = ⟨m, [], []⟩) ∧
    (∀ msg : Json, isStrVal (msg.get "type") "control_request" = true →
      isStrVal ((msg.get "request").bind (fun r => r.get "subtype")) "can_use_tool" = false →
      handleStreamLineS m (StreamLine.json msg) now = ⟨m, [], []⟩) := by
  refine ⟨rfl, ?_, ?_⟩
  · intro msg t ht hmem
    simp only [List.mem_cons, List.not_mem_nil, or_false, not_or] at hmem
    obtain ⟨h1, h2, h3, h4, h5⟩ := hmem
    simp [handleStreamLineS, isStrVal, ht, h1, h2, h3, h4, h5]
  · intro msg hc hs
    have h1 := isStrVal_ne hc (show "system" ≠ "control_request" by decide)
    simp only [handleStreamLineS, h1, Bool.false_and, Bool.false_eq_true, if_false, hc,
      if_true, handleControlRequestS, hs, Bool.not_false]

def c6msgUnknown : Json := Json.obj [("type", Json.str "banana"), ("data", Json.num 3)]

def c6msgCtrl : Json :=
  Json.obj [("type", Json.str "control_request"),
            ("request_id", Json.str "r9"),
            ("request", Json.obj [("subtype", Json.str "interrupt")])]

/-- Witness for C6 at the three concrete hostile inputs. -/
theorem C6_unknown_input_tolerance_witness :
    (handleStreamLineS c2s1 StreamLine.garbage "t" = ⟨c2s1, [], []⟩) ∧
    (c6msgUnknown.get "type" = some (Json.str "banana") ∧
     "banana" ∉ (["system", "control_request", "assistant", "user", "result"] : List String) ∧
     handleStreamLineS c2s1 (StreamLine.json c6msgUnknown) "t" = ⟨c2s1, [], []⟩) ∧
    (isStrVal (c6msgCtrl.get "type") "control_request" = true ∧
     isStrVal ((c6msgCtrl.get "request").bind (fun r => r.get "subtype")) "can_use_tool" = false ∧
     handleStreamLineS c2s1 (StreamLine.json c6msgCtrl) "t" = ⟨c2s1, [], []⟩) :=
  ⟨(C6_unknown_input_tolerance c2s1 "t").1,
   ⟨rfl, by decide,
    (C6_unknown_input_tolerance c2s1 "t").2.1 c6msgUnknown "banana" rfl (by decide)⟩,
   ⟨rfl, rfl,
    (C6_unknown_input_tolerance c2s1 "t").2.2 c6msgCtrl rfl rfl⟩⟩

/-! ## Claim C7 — auto-approve -/

/-- Events `respondToApproval` emits for allow-answering each listed
pending request: a status event and exactly one `approval_response` audit
log entry per request. -/
def expectedAllowEvents (pa : List (String × ApprovalRequest)) : List Event :=
  pa.flatMap (fun kv =>
    [Event.chat_status "running" (some ProcessState.processing) none,
     Event.transcript (TEntryContent.logEvent "approval_response"
       (approvalLogMessage Behavior.allow kv.2.tool_name))])

/-- One encoded allow response line per listed pending request. -/
def expectedAllowWrites (pa : List (String × ApprovalRequest)) : List String :=
  pa.map (fun kv =>
    Json.stringify (controlResponseJson
      { request_id := kv.1, behavior := Behavior.allow,
        updated_input := none, message := none } kv.2) ++ "\n")

theorem respondAll_drains (pa : List (String × ApprovalRequest)) :
    ∀ m : ManagedChat, m.pendingApprovals = pa → m.currentProcess.isSome = true →
      respondAllS m (pa.map Prod.fst) =
        (if pa.isEmpty then m
         else { m with pendingApprovals := [], processState := ProcessState.processing },
         expectedAllowEvents pa, expectedAllowWrites pa) := by
  induction pa with
  | nil =>
    intro m hm _
    simp [respondAllS, expectedAllowEvents, expectedAllowWrites]
  | cons hd tl ih =>
    obtain ⟨k, req⟩ := hd
    intro m hm hproc
    obtain ⟨p, hp⟩ := Option.isSome_iff_exists.mp hproc
    have hget : alistGet m.pendingApprovals k = some req := by
      rw [hm]; simp [alistGet]
    have hdel : alistDel m.pendingApprovals k = tl := by
      rw [hm]; simp [alistDel]
    simp only [List.map_cons, respondAllS]
    rw [respond_success m
      { request_id := k, behavior := Behavior.allow,
        updated_input := none, message := none } req p hget hp]
    rw [ih { m with pendingApprovals := alistDel m.pendingApprovals k,
                    processState := ProcessState.processing }
      (by simp [hdel]) (by simp [hp])]
    cases tl with
    | nil =>
      simp [expectedAllowEvents, expectedAllowWrites, hdel]
    | cons hd' tl' =>
      simp [expectedAllowEvents, expectedAllowWrites, hdel]

/-- The session after one control request arrived and the child then died:
one stale pending approval remains and the handle is gone. -/
def c7dead : ManagedChat := (onExitS c2s2).1

/-- Counterexample to C7: enabling `autoApprove` on this reachable session
with a non-empty `pendingApprovals` resolves nothing — the request stays
pending, no response is written and no audit entry is emitted — because
the attempted `respondToApproval` calls fail on the missing stdin of the
dead child. -/
theorem C7_counterexample :
    Reach c7dead ∧
    c7dead.pendingApprovals.map Prod.fst = ["req-1"] ∧
    c7dead.currentProcess = none ∧
    (setAutoApproveS c7dead true).1.pendingApprovals = c7dead.pendingApprovals ∧
    (setAutoApproveS c7dead true).2.1 = [] ∧
    (setAutoApproveS c7dead true).2.2 = [] :=
  ⟨Reach.exited c2s2_reach, rfl, rfl, rfl, rfl, rfl⟩

/-- Claim C7, amended by the counterexample: provided the session still
holds the child-process handle (live stdin), enabling `autoApprove`
immediately resolves every pending request as allow — each removed from
`pendingApprovals` with its encoded response written to stdin — emitting
exactly one `approval_response` audit entry (plus a status event) per
resolved request; and a new `can_use_tool` request arriving while
`autoApprove` is set is answered allow at once — no `approval_request`
notification, no `approval_prompt` entry — leaving `pendingApprovals` as
before, with `approval_response` and `auto_approval` log entries recording
the auto-decision. Without a live process handle the pending requests stay
unresolved. -/
theorem C7_amended_auto_approve :
    (∀ m : ManagedChat, m.currentProcess.isSome = true →
      setAutoApproveS m true =
        (if m.pendingApprovals.isEmpty then { m with autoApprove := true }
         else { m with autoApprove := true, pendingApprovals := [],
                       processState := ProcessState.processing },
         expectedAllowEvents m.pendingApprovals,
         expectedAllowWrites m.pendingApprovals)) ∧
    (∀ (m : ManagedChat) (now : String) (msg : Json) (p : ChildProc) (rid : String),
      m.autoApprove = true → m.currentProcess = some p →
      isStrVal (msg.get "type") "control_request" = true →
      isStrVal ((msg.get "request").bind (fun r => r.get "subtype")) "can_use_tool" = true →
      (msg.get "request_id").bind Json.asStr = some rid →
      alistGet m.pendingApprovals rid = none →
      handleStreamLineS m (StreamLine.json msg) now =
        ⟨{ m with processState := ProcessState.processing },
         [Event.chat_status "running" (some ProcessState.processing) none,
          Event.transcript (TEntryContent.logEvent "approval_response"
            (approvalLogMessage Behavior.allow (approvalRequestOf msg m.chatId now).tool_name)),
          Event.transcript (TEntryContent.logEvent "auto_approval"
            ("AUTO-APPROVED: " ++ (approvalRequestOf msg m.chatId now).tool_name))],
         [Json.stringify (controlResponseJson
            { request_id := rid, behavior := Behavior.allow,
              updated_input := none, message := none }
            (approvalRequestOf msg m.chatId now)) ++ "\n"]⟩) := by
  constructor
  · intro m hproc
    unfold setAutoApproveS
    by_cases hpe : m.pendingApprovals.isEmpty
    · have hnil : m.pendingApprovals = [] := List.isEmpty_iff.mp hpe
      simp only [hpe, Bool.not_true, Bool.and_false, Bool.false_eq_true, if_false, if_true]
      simp [hnil, expectedAllowEvents, expectedAllowWrites]
    · simp only [hpe, Bool.not_false, Bool.and_true, if_true, Bool.false_eq_true, if_false]
      rw [respondAll_drains m.pendingApprovals
        { m with autoApprove := true } rfl (by simp [hproc])]
      simp [hpe]
  · intro m now msg p rid hauto hp hc hs hrid hfresh
    have h1 := isStrVal_ne hc (show "system" ≠ "control_request" by decide)
    have hridD : ((msg.get "request_id").bind Json.asStr).getD "" = rid := by
      rw [hrid]; rfl
    obtain ⟨cid, nm, cw, st, sid, sp, pm, ip, ps, mc, cp, pa, aa⟩ := m
    simp only at hauto hp hfresh
    subst hauto
    subst hp
    simp only [handleStreamLineS, h1, Bool.false_and, Bool.false_eq_true, if_false, hc,
      if_true, handleControlRequestS, hs, Bool.not_true, hridD]
    rw [respond_success _
      { request_id := rid, behavior := Behavior.allow,
        updated_input := none, message := none }
      (approvalRequestOf msg cid now) p
      (by simp [alistGet_set_self]) rfl]
    simp only [alistDel_set_fresh pa rid _ hfresh, List.cons_append, List.nil_append]

/-- The drained session: auto-approve enabled on the live session with two
pending approvals. -/
def c7auto : ManagedChat := (setAutoApproveS c2s3 true).1

/-- Witness for the amended C7: enabling auto-approve on the concrete live
session with two pending requests, then a third request arriving while
auto-approve is set. -/
theorem C7_amended_auto_approve_witness :
    (c2s3.currentProcess.isSome = true ∧
     setAutoApproveS c2s3 true =
       (if c2s3.pendingApprovals.isEmpty then { c2s3 with autoApprove := true }
        else { c2s3 with autoApprove := true, pendingApprovals := [],
                         processState := ProcessState.processing },
        expectedAllowEvents c2s3.pendingApprovals,
        expectedAllowWrites c2s3.pendingApprovals)) ∧
    (c7auto.autoApprove = true ∧
     c7auto.currentProcess = some ⟨false, none⟩ ∧
     isStrVal ((ctrlLine "req-3" "Edit").get "type") "control_request" = true ∧
     isStrVal (((ctrlLine "req-3" "Edit").get "request").bind (fun r => r.get "subtype"))
       "can_use_tool" = true ∧
     ((ctrlLine "req-3" "Edit").get "request_id").bind Json.asStr = some "req-3" ∧
     alistGet c7auto.pendingApprovals "req-3" = none ∧
     handleStreamLineS c7auto (StreamLine.json (ctrlLine "req-3" "Edit")) "t9" =
       ⟨{ c7auto with processState := ProcessState.processing },
        [Event.chat_status "running" (some ProcessState.processing) none,
         Event.transcript (TEntryContent.logEvent "approval_response"
           (approvalLogMessage Behavior.allow
             (approvalRequestOf (ctrlLine "req-3" "Edit") c7auto.chatId "t9").tool_name)),
         Event.transcript (TEntryContent.logEvent "auto_approval"
           ("AUTO-APPROVED: " ++
             (approvalRequestOf (ctrlLine "req-3" "Edit") c7auto.chatId "t9").tool_name))],
        [Json.stringify (controlResponseJson
           { request_id := "req-3", behavior := Behavior.allow,
             updated_input := none, message := none }
           (approvalRequestOf (ctrlLine "req-3" "Edit") c7auto.chatId "t9")) ++ "\n"]⟩) :=
  ⟨⟨rfl, C7_amended_auto_approve.1 c2s3 rfl⟩,
   ⟨rfl, rfl, rfl, rfl, rfl, rfl,
    C7_amended_auto_approve.2 c7auto "t9" (ctrlLine "req-3" "Edit") ⟨false, none⟩ "req-3"
      rfl rfl rfl rfl rfl rfl⟩⟩

/-! ## Claim C8 — new conversation vs. resume -/

/-- Claim C8: an accepted `sendMessage` spawns with the argument set built
from the pre-call counter; the identity arguments are `--resume` exactly
when the counter is non-zero, a fresh `--session-id` (plus the system
prompt when present) exactly when it is zero; and a chat created from an
existing session id starts at counter 1, forcing `--resume` on its first
message, while a fresh chat starts at 0. -/
theorem C8_conversation_identity :
    (∀ (m : ManagedChat) (fresh : ChildProc), (sendMessageS m fresh).ok = true →
      (sendMessageS m fresh).spawnedArgs = some (buildSpawnArgs m)) ∧
    (∀ m : ManagedChat, identityArgs m = ["--resume", m.sessionId] ↔ m.messageCount ≠ 0) ∧
    (∀ m : ManagedChat, m.messageCount = 0 →
      (∃ s t, buildSpawnArgs m = s ++ ["--session-id", m.sessionId] ++ t) ∧
      (∀ sp, m.systemPrompt = some sp →
        ∃ s, buildSpawnArgs m = s ++ ["--append-system-prompt", sp])) ∧
    (∀ m : ManagedChat, m.messageCount ≠ 0 →
      ∃ s, buildSpawnArgs m = s ++ ["--resume", m.sessionId]) ∧
    (∀ (freshId freshSession cwd : String) (name systemPrompt : Option String)
       (sid : String) (pm : PermissionMode), sid ≠ "" →
      (createChatS freshId freshSession cwd name systemPrompt (some sid) pm).messageCount = 1 ∧
      (createChatS freshId freshSession cwd name systemPrompt (some sid) pm).sessionId = sid) ∧
    (∀ (freshId freshSession cwd : String) (name systemPrompt : Option String)
       (pm : PermissionMode),
      (createChatS freshId freshSession cwd name systemPrompt none pm).messageCount = 0) := by
  refine ⟨?_, ?_, ?_, ?_, ?_, ?_⟩
  · intro m fresh hok
    cases hp : m.isProcessing with
    | false => simp [sendMessageS, hp]
    | true =>
      cases hc : m.currentProcess with
      | none => simp [sendMessageS, hp, hc]; rfl
      | some p =>
        cases hk : p.killed with
        | true => simp [sendMessageS, hp, hc, hk]; rfl
        | false =>
          cases he : p.exitCode with
          | none =>
            rw [show sendMessageS m fresh = ⟨m, [], none, false⟩ from by
              simp [sendMessageS, hp, hc, hk, he]] at hok
            exact Bool.noConfusion hok
          | some c => simp [sendMessageS, hp, hc, hk, he]; rfl
  · intro m
    constructor
    · intro h hc0
      unfold identityArgs at h
      rw [if_pos hc0] at h
      cases hsp : m.systemPrompt with
      | none => rw [hsp] at h; simp at h
      | some sp => rw [hsp] at h; simp at h
    · intro h
      unfold identityArgs
      rw [if_neg h]
  · intro m hc0
    constructor
    · refine ⟨baseArgs ++ permArgs m.permissionMode,
        (match m.systemPrompt with
         | some sp => ["--append-system-prompt", sp]
         | none => []), ?_⟩
      simp [buildSpawnArgs, identityArgs, hc0, List.append_assoc]
    · intro sp hsp
      refine ⟨baseArgs ++ permArgs m.permissionMode ++ ["--session-id", m.sessionId], ?_⟩
      simp [buildSpawnArgs, identityArgs, hc0, hsp, List.append_assoc]
  · intro m hc0
    refine ⟨baseArgs ++ permArgs m.permissionMode, ?_⟩
    simp [buildSpawnArgs, identityArgs, hc0, List.append_assoc]
  · intro freshId freshSession cwd name systemPrompt sid pm hsid
    simp [createChatS, hsid]
  · intro freshId freshSession cwd name systemPrompt pm
    simp [createChatS]

def c8resumed : ManagedChat :=
  createChatS "c8" "fresh8" "/w" none (some "be brief") (some "old-session") PermissionMode.assisted

def c8fresh : ManagedChat :=
  createChatS "c9" "fresh9" "/w" none (some "be brief") none PermissionMode.assisted

/-- Witness for C8: the resumed chat spawns its first message with
`--resume old-session`; the fresh chat spawns with `--session-id fresh9`
and the system prompt. -/
theorem C8_conversation_identity_witness :
    ((sendMessageS c8resumed ⟨false, none⟩).ok = true ∧
     (sendMessageS c8resumed ⟨false, none⟩).spawnedArgs = some (buildSpawnArgs c8resumed)) ∧
    (c8resumed.messageCount = 1 ∧ c8resumed.sessionId = "old-session" ∧
     identityArgs c8resumed = ["--resume", "old-session"]) ∧
    (c8fresh.messageCount = 0 ∧
     (∃ s t, buildSpawnArgs c8fresh = s ++ ["--session-id", c8fresh.sessionId] ++ t) ∧
     (∃ s, buildSpawnArgs c8fresh = s ++ ["--append-system-prompt", "be brief"])) ∧
    ("old-session" ≠ "" ∧
     (createChatS "c8" "fresh8" "/w" none (some "be brief") (some "old-session")
        PermissionMode.assisted).messageCount = 1) := by
  refine ⟨⟨rfl, C8_conversation_identity.1 c8resumed ⟨false, none⟩ rfl⟩,
    ⟨rfl, rfl, ?_⟩, ⟨rfl, ?_, ?_⟩, ⟨by decide, ?_⟩⟩
  · exact (C8_conversation_identity.2.1 c8resumed).mpr (by decide)
  · exact (C8_conversation_identity.2.2.1 c8fresh rfl).1
  · exact (C8_conversation_identity.2.2.1 c8fresh rfl).2 "be brief" rfl
  · exact (C8_conversation_identity.2.2.2.2.1 "c8" "fresh8" "/w" none (some "be brief")
      "old-session" PermissionMode.assisted (by decide)).1

/-! ## Claim C9 — Task tool-use blocks and agent-spawn events -/

def c9input : Json :=
  Json.obj [("subagent_type", Json.str "planner"),
            ("description", Json.str "plan the work"),
            ("prompt", Json.str "make a plan")]

def c9taskBlock : Json :=
  Json.obj [("type", Json.str "tool_use"), ("name", Json.str "Task"),
            ("id", Json.str "tu77"), ("input", c9input)]

def c9msg : Json :=
  Json.obj [("type", Json.str "assistant"),
            ("message", Json.obj [("content", Json.arr [c9taskBlock])])]

/-- Counterexample to C9: fed to the live stream handler, a `tool_use`
block named `Task` produces a generic `tool_use` transcript event — the
handler has no agent-spawn case at all; only the JSONL transcript parser
of the sessions route maps `Task` to a distinct `agent_spawn` entry. -/
theorem C9_counterexample :
    handleStreamLineS c2s1 (StreamLine.json c9msg) "t" =
      ⟨c2s1, [Event.transcript (TEntryContent.toolUse (Json.str "Task")
        (Json.str "tu77") c9input)], []⟩ := rfl

/-- Claim C9, amended by the counterexample: in the sessions route's JSONL
transcript parser, a `tool_use` block named `Task` yields a distinct
`agent_spawn` entry carrying the sub-agent descriptor (agent type,
description, prompt) and every other tool name yields a generic `tool_use`
entry, with the per-block entries appearing in block order; the live
stream handler, however, emits a generic tool-invocation event for every
`tool_use` block, `Task` included. -/
theorem C9_amended_task_agent_spawn :
    (∀ tool : Json, isStrVal (tool.get "name") "Task" = true →
      jsonlToolEntry tool = JsonlEntry.agentSpawn
        (jsOr ((tool.get "input").bind (fun i => i.get "subagent_type")) (Json.str "unknown"))
        (jsOr ((tool.get "input").bind (fun i => i.get "description")) (Json.str ""))
        ((tool.get "input").bind (fun i => i.get "prompt"))
        (tool.get "id")) ∧
    (∀ (tool : Json) (n : String), tool.get "name" = some (Json.str n) → n ≠ "Task" →
      jsonlToolEntry tool = JsonlEntry.toolUse ((tool.get "name").getD Json.null)
        (tool.get "id") ((tool.get "input").getD Json.null)) ∧
    (∀ content : List Json, ∃ s, jsonlAssistantEntries content =
      s ++ (content.filter (isTypeBlock "tool_use")).map jsonlToolEntry) ∧
    (∀ b : Json, isStrVal (b.get "type") "tool_use" = true →
      blockEvent b = some (TEntryContent.toolUse ((b.get "name").getD Json.null)
        ((b.get "id").getD Json.null) ((b.get "input").getD Json.null))) := by
  refine ⟨?_, ?_, ?_, ?_⟩
  · intro tool h
    simp [jsonlToolEntry, h]
  · intro tool n ht hn
    simp [jsonlToolEntry, isStrVal, ht, hn]
  · intro content
    refine ⟨(if joinBlocks content "text" "text" ≠ "" then
        [JsonlEntry.assistantText (joinBlocks content "text" "text")] else []) ++
      (if joinBlocks content "thinking" "thinking" ≠ "" then
        [JsonlEntry.thinkingText (joinBlocks content "thinking" "thinking")] else []), ?_⟩
    simp [jsonlAssistantEntries, List.append_assoc]
  · intro b hb
    have h1 := isStrVal_ne hb (show "text" ≠ "tool_use" by decide)
    simp [blockEvent, h1, hb]

/-- Witness for the amended C9 at the concrete Task and Bash blocks. -/
theorem C9_amended_task_agent_spawn_witness :
    (isStrVal (c9taskBlock.get "name") "Task" = true ∧
     jsonlToolEntry c9taskBlock = JsonlEntry.agentSpawn (Json.str "planner")
       (Json.str "plan the work") (some (Json.str "make a plan")) (some (Json.str "tu77"))) ∧
    (c5toolBlock.get "name" = some (Json.str "Bash") ∧ "Bash" ≠ "Task" ∧
     jsonlToolEntry c5toolBlock = JsonlEntry.toolUse (Json.str "Bash")
       (some (Json.str "tu9")) (Json.obj [("command", Json.str "pwd")])) ∧
    (∃ s, jsonlAssistantEntries [c5textBlock, c9taskBlock] =
      s ++ ([c5textBlock, c9taskBlock].filter (isTypeBlock "tool_use")).map jsonlToolEntry) ∧
    (isStrVal (c9taskBlock.get "type") "tool_use" = true ∧
     blockEvent c9taskBlock = some (TEntryContent.toolUse (Json.str "Task")
       (Json.str "tu77") c9input)) := by
  refine ⟨⟨rfl, ?_⟩, ⟨rfl, by decide, ?_⟩, ?_, rfl, ?_⟩
  · rw [C9_amended_task_agent_spawn.1 c9taskBlock rfl]
    rfl
  · rw [C9_amended_task_agent_spawn.2.1 c5toolBlock "Bash" rfl (by decide)]
    rfl
  · exact C9_amended_task_agent_spawn.2.2.1 [c5textBlock, c9taskBlock]
  · rw [C9_amended_task_agent_spawn.2.2.2 c9taskBlock rfl]
    rfl
